import Mathlib

/-!
Shallow embedding of the adaptive review scheduler of `word_mem.py`
(class `DatabaseManager`, methods `update_word_progress` and
`get_words_for_review`), together with the SQLite tables they touch.

Modelling conventions:
* Python integers become `Int`; SQL timestamps become `Int` (minutes).
* The several `datetime.now()` calls inside one Python invocation are
  modelled as a single sampled instant `now`, passed explicitly to the
  Lean functions (in the Python source the clock is read internally;
  the parameter stands for the sampled value).
* The SQLite tables become Lean lists; `words` is kept in rowid
  (creation) order, and the unordered `ORDER BY` tie-break of SQLite is
  modelled as a stable sort (ties keep table position order).
* `INSERT OR REPLACE` is modelled as erase-then-append on the
  association list.
-/

namespace WordMem

/-- The five scheduler-relevant columns of one `user_word_progress` row,
as read by `update_word_progress` (lines 588-598 of `word_mem.py`). -/
structure ProgressRecord where
  reviewCount : Int
  correctCount : Int
  difficulty : Int
  masteryLevel : Int
  consecutiveCorrect : Int
deriving DecidableEq, Repr

/-- Time units, measured in minutes. -/
def minutes (m : Int) : Int := m

/-- Hours, in minutes. -/
def hours (h : Int) : Int := 60 * h

/-- Days, in minutes. -/
def days (d : Int) : Int := 1440 * d

/-- The statistics update block of `update_word_progress`
(lines 600-611): increment `review_count`, then branch on `is_correct`
to update the other four counters with the min/max clamps of the
source. -/
def advanceStats (p : ProgressRecord) (isCorrect : Bool) : ProgressRecord :=
  if isCorrect then
    { reviewCount := p.reviewCount + 1
      correctCount := p.correctCount + 1
      difficulty := max 1 (p.difficulty - 1)
      masteryLevel := min 5 (p.masteryLevel + 1)
      consecutiveCorrect := p.consecutiveCorrect + 1 }
  else
    { reviewCount := p.reviewCount + 1
      correctCount := p.correctCount
      difficulty := min 5 (p.difficulty + 1)
      masteryLevel := max 0 (p.masteryLevel - 1)
      consecutiveCorrect := 0 }

/-- The whole pure part of `update_word_progress` (lines 600-637): the
statistics update followed by the interval computation, mirroring the
`if consecutive_correct >= 3 / elif is_correct / else` chain of the
source, including the `mastery_level = 5` override in the retirement
branch. Returns the updated record and the computed
`next_review_date`. -/
def advanceCore (p : ProgressRecord) (isCorrect : Bool) (now : Int) :
    ProgressRecord × Int :=
  let q := advanceStats p isCorrect
  if 3 ≤ q.consecutiveCorrect then
    ({ q with masteryLevel := 5 }, now + days 365)
  else if isCorrect then
    (q, now + (if q.masteryLevel ≤ 1 then minutes 20
      else if q.masteryLevel = 2 then hours 1
      else if q.masteryLevel = 3 then hours 8
      else if q.masteryLevel = 4 then days 1
      else days 2))
  else
    (q, now + (if 4 ≤ q.difficulty then minutes 5
      else if 3 ≤ q.difficulty then minutes 10
      else minutes 15))

/-- One row of the `user_word_progress` table (all columns the scheduler
touches; the two date columns are nullable). -/
structure ProgressRow where
  reviewCount : Int
  correctCount : Int
  difficulty : Int
  masteryLevel : Int
  consecutiveCorrect : Int
  lastReviewDate : Option Int
  nextReviewDate : Option Int
deriving DecidableEq, Repr

/-- One row of the `words` table. -/
structure Word where
  id : Int
  word : String
  pronunciation : String
  meaning : String
  level : String
  createdAt : Int
deriving DecidableEq, Repr

/-- One row of the append-only `study_records` table (the columns
written by `update_word_progress`). -/
structure StudyRecord where
  userId : Int
  wordId : Int
  isCorrect : Bool
  studyMode : String
deriving DecidableEq, Repr

/-- The scheduler-relevant state of `DatabaseManager`: the mutable
`current_user_id` pointer and the three tables. `progress` is keyed by
the UNIQUE pair `(user_id, word_id)`; `words` is in rowid (creation)
order. -/
structure DB where
  currentUserId : Option Int
  words : List Word
  progress : List ((Int × Int) × ProgressRow)
  studyRecords : List StudyRecord
deriving DecidableEq, Repr

/-- The SELECT at lines 588-598: fetch the five counters of the
`(user, word)` progress row, or the defaults `0, 0, 1, 0, 0` when no
row exists. -/
def fetchProgress (db : DB) (uid wid : Int) : ProgressRecord :=
  match db.progress.find? (fun e => decide (e.1 = (uid, wid))) with
  | some e => { reviewCount := e.2.reviewCount
                correctCount := e.2.correctCount
                difficulty := e.2.difficulty
                masteryLevel := e.2.masteryLevel
                consecutiveCorrect := e.2.consecutiveCorrect }
  | none => { reviewCount := 0, correctCount := 0, difficulty := 1
              masteryLevel := 0, consecutiveCorrect := 0 }

/-- `INSERT OR REPLACE INTO user_word_progress` under the
`UNIQUE(user_id, word_id)` constraint: drop any row with the key, then
append the new row. -/
def upsertProgress (key : Int × Int) (row : ProgressRow)
    (l : List ((Int × Int) × ProgressRow)) : List ((Int × Int) × ProgressRow) :=
  (l.filter (fun e => !decide (e.1 = key))) ++ [(key, row)]

/-- `update_word_progress(word_id, is_correct, study_mode)` (lines
579-651). When no user is logged in it returns at once; otherwise it
runs `advanceCore` on the fetched record, upserts the progress row
(with `last_review_date = now` and the computed `next_review_date`) and
appends one study record. `now` models the internally sampled
`datetime.now()`. -/
def update_word_progress (db : DB) (wordId : Int) (isCorrect : Bool)
    (studyMode : String) (now : Int) : DB :=
  match db.currentUserId with
  | none => db
  | some uid =>
      let p := fetchProgress db uid wordId
      let r := advanceCore p isCorrect now
      { db with
        progress := upsertProgress (uid, wordId)
          { reviewCount := r.1.reviewCount
            correctCount := r.1.correctCount
            difficulty := r.1.difficulty
            masteryLevel := r.1.masteryLevel
            consecutiveCorrect := r.1.consecutiveCorrect
            lastReviewDate := some now
            nextReviewDate := some r.2 } db.progress
        studyRecords := db.studyRecords ++
          [{ userId := uid, wordId := wordId
             isCorrect := isCorrect, studyMode := studyMode }] }

/-- One row of the LEFT JOIN in `get_words_for_review`: a word, its
position in the `words` table (rowid order), and its progress row for
the current user when one exists. -/
structure JoinedRow where
  pos : Nat
  word : Word
  prog : Option ProgressRow
deriving DecidableEq, Repr

/-- The `next_review_date` seen by the query: NULL when there is no
progress row or the column is NULL. -/
def rowNextDue (r : JoinedRow) : Option Int := r.prog.bind (·.nextReviewDate)

/-- `COALESCE(uwp.consecutive_correct, 0)`. -/
def rowConsecutive (r : JoinedRow) : Int :=
  (r.prog.map (·.consecutiveCorrect)).getD 0

/-- `COALESCE(uwp.next_review_date, w.created_at)`, the sort key of the
query. -/
def rowKey (r : JoinedRow) : Int := (rowNextDue r).getD r.word.createdAt

/-- The LEFT JOIN of `words` with the current user's
`user_word_progress` rows, in `words`-table order. -/
def joinRows (db : DB) (uid : Int) : List JoinedRow :=
  db.words.enum.map (fun e =>
    { pos := e.1, word := e.2
      prog := (db.progress.find? (fun q => decide (q.1 = (uid, e.2.id)))).map (·.2) })

/-- `uwp.next_review_date IS NULL OR uwp.next_review_date <= now`. -/
def isDueRow (now : Int) (r : JoinedRow) : Bool :=
  match rowNextDue r with
  | none => true
  | some t => decide (t ≤ now)

/-- The optional level filter. The Python guard is `if level:`, so the
condition is appended only for a non-`None`, non-empty level string. -/
def levelCond (lvl : Option String) (r : JoinedRow) : Bool :=
  match lvl with
  | none => true
  | some l => if l = "" then true else decide (r.word.level = l)

/-- The full WHERE clause of the query: due, not retired
(`COALESCE(consecutive_correct, 0) < 3`), and level match when a level
filter is active. -/
def eligibleRow (now : Int) (lvl : Option String) (r : JoinedRow) : Bool :=
  isDueRow now r && decide (rowConsecutive r < 3) && levelCond lvl r

/-- The `ORDER BY COALESCE(uwp.next_review_date, w.created_at) ASC`
order, with ties resolved by position in the `words` table (the stable
model of the unspecified SQLite tie order). -/
def dueOrder (a b : JoinedRow) : Prop :=
  rowKey a < rowKey b ∨ (rowKey a = rowKey b ∧ a.pos ≤ b.pos)

instance : DecidableRel dueOrder := fun a b =>
  inferInstanceAs (Decidable
    (rowKey a < rowKey b ∨ (rowKey a = rowKey b ∧ a.pos ≤ b.pos)))

instance : IsTotal JoinedRow dueOrder := by
  constructor
  intro a b
  unfold dueOrder
  rcases lt_trichotomy (rowKey a) (rowKey b) with h | h | h
  · exact Or.inl (Or.inl h)
  · rcases Nat.le_total a.pos b.pos with hp | hp
    · exact Or.inl (Or.inr ⟨h, hp⟩)
    · exact Or.inr (Or.inr ⟨h.symm, hp⟩)
  · exact Or.inr (Or.inl h)

instance : IsTrans JoinedRow dueOrder := by
  constructor
  intro a b c hab hbc
  unfold dueOrder at *
  rcases hab with h1 | ⟨h1, h1p⟩ <;> rcases hbc with h2 | ⟨h2, h2p⟩
  · exact Or.inl (h1.trans h2)
  · exact Or.inl (h2 ▸ h1)
  · exact Or.inl (h1 ▸ h2)
  · exact Or.inr ⟨h1.trans h2, h1p.trans h2p⟩

/-- `get_words_for_review(limit, level)` (lines 543-577): empty when no
user is logged in; otherwise filter the joined rows by the WHERE
clause, sort by the COALESCE key, and take `limit` rows. `now` models
the internally sampled `datetime.now()`. -/
def get_words_for_review (db : DB) (now : Int) (limit : Nat)
    (lvl : Option String) : List JoinedRow :=
  match db.currentUserId with
  | none => []
  | some uid =>
      (List.insertionSort dueOrder
        ((joinRows db uid).filter (eligibleRow now lvl))).take limit

/-- The ordering claimed by the specification for the due queue:
`nextDueAt` ascending with an absent value treated as the earliest
possible value. Stated from the spec, to be compared with the order the
code implements. -/
def specDueLE (a b : Option Int) : Bool :=
  match a, b with
  | none, _ => true
  | some _, none => false
  | some x, some y => decide (x ≤ y)

/-- Erase the study mode of a study record, for comparing event logs up
to the recorded mode. -/
def eraseMode (s : StudyRecord) : StudyRecord := { s with studyMode := "" }

/-- C1: a missing progress row is read back as the freshly initialized
record `(0, 0, 1, 0, 0)`, and the statistics block of
`update_word_progress` satisfies the claimed field equations:
`review_count` always increments; on a correct answer `correct_count`
and `consecutive_correct` increment, `mastery_level` becomes
`min 5 (mastery_level + 1)` and `difficulty` becomes
`max 1 (difficulty - 1)`; on an incorrect answer `correct_count` is
unchanged, `consecutive_correct` resets to 0, `mastery_level` becomes
`max 0 (mastery_level - 1)` and `difficulty` becomes
`min 5 (difficulty + 1)`. -/
theorem advance_transition (db : DB) (uid wid : Int) (p : ProgressRecord)
    (h : db.progress.find? (fun e => decide (e.1 = (uid, wid))) = none) :
    fetchProgress db uid wid =
      { reviewCount := 0, correctCount := 0, difficulty := 1
        masteryLevel := 0, consecutiveCorrect := 0 } ∧
    (advanceStats p true).reviewCount = p.reviewCount + 1 ∧
    (advanceStats p false).reviewCount = p.reviewCount + 1 ∧
    (advanceStats p true).correctCount = p.correctCount + 1 ∧
    (advanceStats p true).consecutiveCorrect = p.consecutiveCorrect + 1 ∧
    (advanceStats p true).masteryLevel = min 5 (p.masteryLevel + 1) ∧
    (advanceStats p true).difficulty = max 1 (p.difficulty - 1) ∧
    (advanceStats p false).correctCount = p.correctCount ∧
    (advanceStats p false).consecutiveCorrect = 0 ∧
    (advanceStats p false).masteryLevel = max 0 (p.masteryLevel - 1) ∧
    (advanceStats p false).difficulty = min 5 (p.difficulty + 1) := by
  refine ⟨?_, ?_, ?_, ?_, ?_, ?_, ?_, ?_, ?_, ?_, ?_⟩ <;>
    simp [fetchProgress, h, advanceStats]

/-- Witness for C1 at a concrete empty database and a concrete
record. -/
theorem advance_transition_witness :
    (DB.mk (some 1) [] [] []).progress.find?
        (fun e => decide (e.1 = ((1 : Int), (7 : Int)))) = none ∧
    (fetchProgress (DB.mk (some 1) [] [] []) 1 7 =
      { reviewCount := 0, correctCount := 0, difficulty := 1
        masteryLevel := 0, consecutiveCorrect := 0 } ∧
    (advanceStats ⟨2, 1, 3, 2, 1⟩ true).reviewCount = 2 + 1 ∧
    (advanceStats ⟨2, 1, 3, 2, 1⟩ false).reviewCount = 2 + 1 ∧
    (advanceStats ⟨2, 1, 3, 2, 1⟩ true).correctCount = 1 + 1 ∧
    (advanceStats ⟨2, 1, 3, 2, 1⟩ true).consecutiveCorrect = 1 + 1 ∧
    (advanceStats ⟨2, 1, 3, 2, 1⟩ true).masteryLevel = min 5 (2 + 1) ∧
    (advanceStats ⟨2, 1, 3, 2, 1⟩ true).difficulty = max 1 (3 - 1) ∧
    (advanceStats ⟨2, 1, 3, 2, 1⟩ false).correctCount = 1 ∧
    (advanceStats ⟨2, 1, 3, 2, 1⟩ false).consecutiveCorrect = 0 ∧
    (advanceStats ⟨2, 1, 3, 2, 1⟩ false).masteryLevel = max 0 (2 - 1) ∧
    (advanceStats ⟨2, 1, 3, 2, 1⟩ false).difficulty = min 5 (3 + 1)) :=
  ⟨by decide, advance_transition (DB.mk (some 1) [] [] []) 1 7
    ⟨2, 1, 3, 2, 1⟩ (by decide)⟩

/-- C2: the interval computation of `update_word_progress` follows the
claimed ordered decision list on the post-update values: a streak of 3
or more gives 365 days and forces `mastery_level` to 5; otherwise a
correct answer gives 20 minutes, 1 hour, 8 hours, 1 day or 2 days by
`mastery_level`, and an incorrect answer gives 5, 10 or 15 minutes by
`difficulty`. -/
theorem advance_interval_policy (p : ProgressRecord) (b : Bool) (now : Int) :
    (advanceCore p b now).2 = now +
      (if 3 ≤ (advanceStats p b).consecutiveCorrect then days 365
       else if b then
         (if (advanceStats p b).masteryLevel ≤ 1 then minutes 20
          else if (advanceStats p b).masteryLevel = 2 then hours 1
          else if (advanceStats p b).masteryLevel = 3 then hours 8
          else if (advanceStats p b).masteryLevel = 4 then days 1
          else days 2)
       else
         (if 4 ≤ (advanceStats p b).difficulty then minutes 5
          else if (advanceStats p b).difficulty = 3 then minutes 10
          else minutes 15)) ∧
    (advanceCore p b now).1 =
      (if 3 ≤ (advanceStats p b).consecutiveCorrect then
        { advanceStats p b with masteryLevel := 5 }
       else advanceStats p b) := by
  unfold advanceCore
  cases b <;> dsimp only <;> constructor <;> split_ifs <;>
    first | rfl | omega

/-- C5: for a record satisfying the data-model field invariants, the
record produced by `update_word_progress` satisfies
`0 ≤ mastery_level ≤ 5`, `1 ≤ difficulty ≤ 5`,
`0 ≤ consecutive_correct` and `correct_count ≤ review_count`. -/
theorem advance_invariants (p : ProgressRecord) (b : Bool) (now : Int)
    (h1 : 0 ≤ p.reviewCount) (h2 : p.correctCount ≤ p.reviewCount)
    (h3 : 1 ≤ p.difficulty) (h4 : p.difficulty ≤ 5)
    (h5 : 0 ≤ p.masteryLevel) (h6 : p.masteryLevel ≤ 5)
    (h7 : 0 ≤ p.consecutiveCorrect) :
    0 ≤ (advanceCore p b now).1.masteryLevel ∧
    (advanceCore p b now).1.masteryLevel ≤ 5 ∧
    1 ≤ (advanceCore p b now).1.difficulty ∧
    (advanceCore p b now).1.difficulty ≤ 5 ∧
    0 ≤ (advanceCore p b now).1.consecutiveCorrect ∧
    (advanceCore p b now).1.correctCount ≤ (advanceCore p b now).1.reviewCount := by
  unfold advanceCore advanceStats
  cases b <;> simp <;> (try split_ifs) <;> (try simp) <;> omega

/-- Witness for C5 at a concrete in-range record. -/
theorem advance_invariants_witness :
    0 ≤ (advanceCore ⟨4, 2, 2, 3, 1⟩ true 0).1.masteryLevel ∧
    (advanceCore ⟨4, 2, 2, 3, 1⟩ true 0).1.masteryLevel ≤ 5 ∧
    1 ≤ (advanceCore ⟨4, 2, 2, 3, 1⟩ true 0).1.difficulty ∧
    (advanceCore ⟨4, 2, 2, 3, 1⟩ true 0).1.difficulty ≤ 5 ∧
    0 ≤ (advanceCore ⟨4, 2, 2, 3, 1⟩ true 0).1.consecutiveCorrect ∧
    (advanceCore ⟨4, 2, 2, 3, 1⟩ true 0).1.correctCount ≤
      (advanceCore ⟨4, 2, 2, 3, 1⟩ true 0).1.reviewCount :=
  advance_invariants ⟨4, 2, 2, 3, 1⟩ true 0 (by decide) (by decide)
    (by decide) (by decide) (by decide) (by decide) (by decide)

/-- C7 counterexample: presented with a record whose `mastery_level` is
7 (outside `[0, 5]`), `update_word_progress` raises no validation
error: it produces an updated record by the usual arithmetic, and that
record still has `mastery_level = 6`, outside the legal range — so
nothing is rejected and nothing is clamped back into range. -/
theorem advance_no_validation_cex :
    (advanceCore { reviewCount := 0, correctCount := 0, difficulty := 1
                   masteryLevel := 7, consecutiveCorrect := 0 } false 0).1 =
      { reviewCount := 1, correctCount := 0, difficulty := 2
        masteryLevel := 6, consecutiveCorrect := 0 } ∧
    ¬ ((advanceCore { reviewCount := 0, correctCount := 0, difficulty := 1
                      masteryLevel := 7, consecutiveCorrect := 0 } false
        0).1.masteryLevel ≤ 5) := by
  constructor
  · rfl
  · decide

/-- C7 amended: `update_word_progress` performs no validation at all;
on a record with `mastery_level` above 5 it still increments
`review_count` and applies `max 0 (mastery_level - 1)`, so the produced
record remains out of range rather than being rejected or clamped into
range. -/
theorem advance_total_on_invalid (p : ProgressRecord) (now : Int)
    (h : 5 < p.masteryLevel) :
    (advanceCore p false now).1.reviewCount = p.reviewCount + 1 ∧
    (advanceCore p false now).1.masteryLevel = p.masteryLevel - 1 ∧
    5 ≤ (advanceCore p false now).1.masteryLevel := by
  unfold advanceCore advanceStats
  simp
  (try split_ifs) <;> (try simp) <;> omega

/-- Witness for the amended C7 at the concrete out-of-range record of
the counterexample. -/
theorem advance_total_on_invalid_witness :
    (5 : Int) < 7 ∧
    ((advanceCore ⟨0, 0, 1, 7, 0⟩ false 0).1.reviewCount = 0 + 1 ∧
     (advanceCore ⟨0, 0, 1, 7, 0⟩ false 0).1.masteryLevel = 7 - 1 ∧
     5 ≤ (advanceCore ⟨0, 0, 1, 7, 0⟩ false 0).1.masteryLevel) :=
  ⟨by decide, advance_total_on_invalid ⟨0, 0, 1, 7, 0⟩ 0 (by decide)⟩

/-- C8 counterexample: `update_word_progress` reads the clock
internally (`datetime.now()`); `now` is not one of its Python
arguments. Two invocations with identical caller-supplied arguments
(same database, word id, outcome, study mode) but different sampled
clock values store different records, so the result is not a function
of the caller-supplied arguments alone. -/
theorem advance_clock_dependence_cex :
    update_word_progress (DB.mk (some 1) [] [] []) 1 true "recognition" 0 ≠
      update_word_progress (DB.mk (some 1) [] [] []) 1 true "recognition" 1 := by
  decide

/-- C8 amended: `update_word_progress` and the due query are
deterministic in the record, the outcome and the internally sampled
clock value; every field of the updated record other than the schedule
dates is independent of the sampled clock, and the computed
`next_review_date` depends on it only as a fixed offset. -/
theorem advance_clock_equivariance (p : ProgressRecord) (b : Bool)
    (n n' : Int) :
    (advanceCore p b n).1 = (advanceCore p b n').1 ∧
    (advanceCore p b n).2 - n = (advanceCore p b n').2 - n' := by
  unfold advanceCore
  constructor <;> dsimp only <;> split_ifs <;>
    first | rfl | omega

/-- Any row returned by `get_words_for_review` comes from the joined
table of the logged-in user and passes the WHERE clause. -/
theorem mem_get_words_eligible {db : DB} {now : Int} {limit : Nat}
    {lvl : Option String} {r : JoinedRow}
    (h : r ∈ get_words_for_review db now limit lvl) :
    ∃ uid, db.currentUserId = some uid ∧ r ∈ joinRows db uid ∧
      eligibleRow now lvl r = true := by
  unfold get_words_for_review at h
  cases hcu : db.currentUserId with
  | none => rw [hcu] at h; simp at h
  | some uid =>
      rw [hcu] at h
      have h1 : r ∈ List.insertionSort dueOrder
          ((joinRows db uid).filter (eligibleRow now lvl)) :=
        List.mem_of_mem_take h
      have h2 : r ∈ (joinRows db uid).filter (eligibleRow now lvl) :=
        (List.perm_insertionSort dueOrder
          ((joinRows db uid).filter (eligibleRow now lvl))).mem_iff.mp h1
      have h3 := List.mem_filter.mp h2
      exact ⟨uid, rfl, h3.1, h3.2⟩

/-- The WHERE clause, as a Boolean, is equivalent to the claimed
eligibility proposition, provided the supplied level filter is not the
empty string (the Python guard `if level:` ignores a falsy filter). -/
theorem eligibleRow_true_iff {now : Int} {lvl : Option String}
    {r : JoinedRow} (hl : lvl ≠ some "") :
    eligibleRow now lvl r = true ↔
      ((rowNextDue r = none ∨ ∃ t, rowNextDue r = some t ∧ t ≤ now) ∧
       rowConsecutive r < 3 ∧ ∀ l, lvl = some l → r.word.level = l) := by
  unfold eligibleRow isDueRow levelCond
  cases hnd : rowNextDue r with
  | none =>
      cases lvl with
      | none => simp [hnd]
      | some l =>
          have hl' : ¬ (l = "") := fun he => hl (by rw [he])
          simp [hnd, hl']
          (try tauto)
  | some t =>
      cases lvl with
      | none => simp [hnd]
      | some l =>
          have hl' : ¬ (l = "") := fun he => hl (by rw [he])
          simp [hnd, hl']
          (try tauto)

/-- A row passing the WHERE clause has a consecutive-correct streak
below 3. -/
theorem eligibleRow_consecutive {now : Int} {lvl : Option String}
    {r : JoinedRow} (h : eligibleRow now lvl r = true) :
    rowConsecutive r < 3 := by
  unfold eligibleRow at h
  simp only [Bool.and_eq_true, decide_eq_true_eq] at h
  exact h.1.2

/-- C3: a row is in the `get_words_for_review` result only if it is due
(`next_review_date` NULL or at most `now`), unretired
(`consecutive_correct < 3`, with 0 for a missing record) and matches a
supplied level filter; the result holds at most `limit` rows; and when
at most `limit` rows satisfy the WHERE clause, membership is exactly
that condition. -/
theorem get_words_membership (db : DB) (uid : Int) (now : Int)
    (limit : Nat) (lvl : Option String) (r : JoinedRow)
    (hu : db.currentUserId = some uid) (hl : lvl ≠ some "") :
    (r ∈ get_words_for_review db now limit lvl →
       (r ∈ joinRows db uid ∧
        (rowNextDue r = none ∨ ∃ t, rowNextDue r = some t ∧ t ≤ now) ∧
        rowConsecutive r < 3 ∧ ∀ l, lvl = some l → r.word.level = l)) ∧
    (get_words_for_review db now limit lvl).length ≤ limit ∧
    (((joinRows db uid).filter (eligibleRow now lvl)).length ≤ limit →
       (r ∈ get_words_for_review db now limit lvl ↔
         (r ∈ joinRows db uid ∧
          (rowNextDue r = none ∨ ∃ t, rowNextDue r = some t ∧ t ≤ now) ∧
          rowConsecutive r < 3 ∧ ∀ l, lvl = some l → r.word.level = l))) := by
  have hfwd : r ∈ get_words_for_review db now limit lvl →
      (r ∈ joinRows db uid ∧
       (rowNextDue r = none ∨ ∃ t, rowNextDue r = some t ∧ t ≤ now) ∧
       rowConsecutive r < 3 ∧ ∀ l, lvl = some l → r.word.level = l) := by
    intro h
    obtain ⟨uid', hu', hmem, helig⟩ := mem_get_words_eligible h
    rw [hu] at hu'
    obtain rfl := Option.some.inj hu'
    exact ⟨hmem, (eligibleRow_true_iff hl).mp helig⟩
  refine ⟨hfwd, ?_, ?_⟩
  · unfold get_words_for_review
    rw [hu]
    exact List.length_take_le limit _
  · intro hlen
    refine ⟨hfwd, ?_⟩
    rintro ⟨hmem, hprops⟩
    have helig : eligibleRow now lvl r = true :=
      (eligibleRow_true_iff hl).mpr ⟨hprops.1, hprops.2.1, hprops.2.2⟩
    have h2 : r ∈ (joinRows db uid).filter (eligibleRow now lvl) :=
      List.mem_filter.mpr ⟨hmem, helig⟩
    have hperm := List.perm_insertionSort dueOrder
      ((joinRows db uid).filter (eligibleRow now lvl))
    have h3 : r ∈ List.insertionSort dueOrder
        ((joinRows db uid).filter (eligibleRow now lvl)) :=
      hperm.mem_iff.mpr h2
    have hlen2 : (List.insertionSort dueOrder
        ((joinRows db uid).filter (eligibleRow now lvl))).length ≤ limit := by
      rw [hperm.length_eq]; exact hlen
    unfold get_words_for_review
    rw [hu]
    show r ∈ List.take limit (List.insertionSort dueOrder
        ((joinRows db uid).filter (eligibleRow now lvl)))
    rw [List.take_of_length_le hlen2]
    exact h3

/-- Witness for C3 at a concrete one-word database with no filter. -/
theorem get_words_membership_witness :
    (DB.mk (some 1) [Word.mk 1 "a" "" "m" "L" 0] [] []).currentUserId =
        some 1 ∧
    (none : Option String) ≠ some "" ∧
    (get_words_for_review (DB.mk (some 1) [Word.mk 1 "a" "" "m" "L" 0]
        [] []) 0 10 none).length ≤ 10 :=
  ⟨rfl, by decide,
    (get_words_membership (DB.mk (some 1) [Word.mk 1 "a" "" "m" "L" 0] [] [])
      1 0 10 none (JoinedRow.mk 0 (Word.mk 1 "a" "" "m" "L" 0) none)
      rfl (by decide)).2.1⟩

/-- C4 counterexample: a due never-reviewed word created at time 100
and a due reviewed word with `next_review_date = 50`. The query sorts
by `COALESCE(next_review_date, created_at)`, so the reviewed word (key
50) precedes the never-reviewed one (key 100): the output is not
sorted by `nextDueAt` with absent treated as the earliest value, and
the never-reviewed item does not surface first. -/
theorem get_words_order_cex :
    ¬ (get_words_for_review
        (DB.mk (some 1)
          [Word.mk 1 "a" "" "m" "L" 100, Word.mk 2 "b" "" "m" "L" 0]
          [((1, 2), ProgressRow.mk 1 1 1 1 1 (some 0) (some 50))] [])
        200 10 none).Pairwise
      (fun a b => specDueLE (rowNextDue a) (rowNextDue b) = true) := by
  intro hpw
  have hev : get_words_for_review
      (DB.mk (some 1)
        [Word.mk 1 "a" "" "m" "L" 100, Word.mk 2 "b" "" "m" "L" 0]
        [((1, 2), ProgressRow.mk 1 1 1 1 1 (some 0) (some 50))] [])
      200 10 none =
      [JoinedRow.mk 1 (Word.mk 2 "b" "" "m" "L" 0)
         (some (ProgressRow.mk 1 1 1 1 1 (some 0) (some 50))),
       JoinedRow.mk 0 (Word.mk 1 "a" "" "m" "L" 100) none] := by decide
  rw [hev] at hpw
  have hrel := (List.pairwise_cons.mp hpw).1
    (JoinedRow.mk 0 (Word.mk 1 "a" "" "m" "L" 100) none) (by simp)
  simp [specDueLE, rowNextDue] at hrel

/-- C4 amended: the query output is sorted ascending by the key
`COALESCE(next_review_date, created_at)` — an absent `nextDueAt` is
replaced by the item's creation time, not by the earliest possible
value — with ties on equal keys broken by item creation (table)
order. -/
theorem get_words_sorted (db : DB) (now : Int) (limit : Nat)
    (lvl : Option String) :
    (get_words_for_review db now limit lvl).Pairwise dueOrder := by
  unfold get_words_for_review
  cases hcu : db.currentUserId with
  | none =>
      exact List.Pairwise.nil
  | some uid =>
      exact (List.sorted_insertionSort dueOrder
        ((joinRows db uid).filter (eligibleRow now lvl))).sublist
        (List.take_sublist limit _)

/-- C6: from a record with a streak of at least 3, a further correct
answer increments the streak (keeping it at least 3), forces
`mastery_level = 5` and re-extends `next_review_date` to
`now + 365` days; and no row with a streak of 3 or more ever appears in
the `get_words_for_review` output, whatever `now` is. -/
theorem retirement_sustained (p : ProgressRecord) (now : Int)
    (h : 3 ≤ p.consecutiveCorrect) :
    (advanceCore p true now).1.consecutiveCorrect =
        p.consecutiveCorrect + 1 ∧
    3 ≤ (advanceCore p true now).1.consecutiveCorrect ∧
    (advanceCore p true now).1.masteryLevel = 5 ∧
    (advanceCore p true now).2 = now + days 365 ∧
    ∀ (db : DB) (now2 : Int) (limit : Nat) (lvl : Option String)
      (r : JoinedRow), 3 ≤ rowConsecutive r →
        r ∉ get_words_for_review db now2 limit lvl := by
  have hc : (3 : Int) ≤ p.consecutiveCorrect + 1 := by omega
  refine ⟨?_, ?_, ?_, ?_, ?_⟩
  · simp [advanceCore, advanceStats, hc]
  · simp [advanceCore, advanceStats, hc]
    (try omega)
  · simp [advanceCore, advanceStats, hc]
  · simp [advanceCore, advanceStats, hc]
  · intro db now2 limit lvl r hr hmem
    obtain ⟨uid, _, _, helig⟩ := mem_get_words_eligible hmem
    have := eligibleRow_consecutive helig
    omega

/-- Witness for C6 at a concrete retired record. -/
theorem retirement_sustained_witness :
    (3 : Int) ≤ 3 ∧
    (advanceCore ⟨3, 3, 1, 5, 3⟩ true 0).1.consecutiveCorrect = 3 + 1 ∧
    3 ≤ (advanceCore ⟨3, 3, 1, 5, 3⟩ true 0).1.consecutiveCorrect ∧
    (advanceCore ⟨3, 3, 1, 5, 3⟩ true 0).1.masteryLevel = 5 ∧
    (advanceCore ⟨3, 3, 1, 5, 3⟩ true 0).2 = 0 + days 365 :=
  ⟨by decide,
    (retirement_sustained ⟨3, 3, 1, 5, 3⟩ 0 (by decide)).1,
    (retirement_sustained ⟨3, 3, 1, 5, 3⟩ 0 (by decide)).2.1,
    (retirement_sustained ⟨3, 3, 1, 5, 3⟩ 0 (by decide)).2.2.1,
    (retirement_sustained ⟨3, 3, 1, 5, 3⟩ 0 (by decide)).2.2.2.1⟩

/-- C9: the study mode does not interfere with scheduling. Two
`update_word_progress` calls differing only in the study mode leave the
user pointer, the word table and the progress table identical, and
produce event logs that agree up to the recorded mode; the mode itself
is only recorded in the appended study record. -/
theorem study_mode_noninterference (db : DB) (wid : Int) (b : Bool)
    (m1 m2 : String) (now : Int) :
    (update_word_progress db wid b m1 now).currentUserId =
      (update_word_progress db wid b m2 now).currentUserId ∧
    (update_word_progress db wid b m1 now).words =
      (update_word_progress db wid b m2 now).words ∧
    (update_word_progress db wid b m1 now).progress =
      (update_word_progress db wid b m2 now).progress ∧
    (update_word_progress db wid b m1 now).studyRecords.map eraseMode =
      (update_word_progress db wid b m2 now).studyRecords.map eraseMode ∧
    ∀ uid, db.currentUserId = some uid →
      (update_word_progress db wid b m1 now).studyRecords =
        db.studyRecords ++
          [{ userId := uid, wordId := wid, isCorrect := b
             studyMode := m1 }] := by
  unfold update_word_progress
  cases hcu : db.currentUserId with
  | none =>
      refine ⟨rfl, rfl, rfl, rfl, ?_⟩
      intro uid huid
      exact absurd huid (by simp)
  | some uid =>
      refine ⟨rfl, rfl, rfl, by simp [eraseMode], ?_⟩
      intro uid2 huid
      obtain rfl := Option.some.inj huid
      rfl

/-- Witness for C9 at a concrete database and two distinct modes. -/
theorem study_mode_noninterference_witness :
    (update_word_progress (DB.mk (some 1) [] [] []) 5 true "recognition"
        0).progress =
      (update_word_progress (DB.mk (some 1) [] [] []) 5 true "recall"
        0).progress ∧
    (update_word_progress (DB.mk (some 1) [] [] []) 5 true "recognition"
        0).studyRecords =
      [] ++ [{ userId := 1, wordId := 5, isCorrect := true
               studyMode := "recognition" }] :=
  ⟨(study_mode_noninterference (DB.mk (some 1) [] [] []) 5 true
      "recognition" "recall" 0).2.2.1,
   (study_mode_noninterference (DB.mk (some 1) [] [] []) 5 true
      "recognition" "recall" 0).2.2.2.2 1 rfl⟩

/-- C10: with no logged-in user, `get_words_for_review` returns the
empty list and `update_word_progress` returns the database unchanged
(no progress row touched, no study record appended), for every word id,
outcome and study mode. -/
theorem no_user_noop (db : DB) (now : Int) (limit : Nat)
    (lvl : Option String) (wid : Int) (b : Bool) (m : String)
    (h : db.currentUserId = none) :
    get_words_for_review db now limit lvl = [] ∧
    update_word_progress db wid b m now = db := by
  unfold get_words_for_review update_word_progress
  rw [h]
  exact ⟨rfl, rfl⟩

/-- Witness for C10 at a concrete logged-out database. -/
theorem no_user_noop_witness :
    (DB.mk none [Word.mk 1 "a" "" "m" "L" 0] [] []).currentUserId = none ∧
    (get_words_for_review (DB.mk none [Word.mk 1 "a" "" "m" "L" 0] [] [])
        0 10 none = [] ∧
     update_word_progress (DB.mk none [Word.mk 1 "a" "" "m" "L" 0] [] [])
        1 true "recognition" 0 =
       DB.mk none [Word.mk 1 "a" "" "m" "L" 0] [] []) :=
  ⟨rfl, no_user_noop (DB.mk none [Word.mk 1 "a" "" "m" "L" 0] [] [])
    0 10 none 1 true "recognition" rfl⟩

end WordMem
